import Mathlib

/-!
Verification of the aggregation/comparison core of the vllm-benchmark-graphs
reporting scripts (`prompt-comparisons.py`), as a shallow embedding in Lean.

Numeric values are modelled as rationals (`ℚ`); a pandas missing value (NaN)
is modelled as `none` in `Option ℚ`.  Python's `round(x, 2)` rounds to the
nearest multiple of 1/100, breaking ties towards the even multiple
(banker's rounding); `round2` below models that exactly on `ℚ`.
-/

namespace VBG

/-- Round a rational to the nearest integer, ties to the even integer
(the rounding mode of Python's built-in `round`). -/
def roundHalfEven (q : ℚ) : ℤ :=
  let f : ℤ := ⌊q⌋
  let frac : ℚ := q - f
  if frac < 1/2 then f
  else if 1/2 < frac then f + 1
  else if f % 2 = 0 then f else f + 1

/-- `round(x, 2)` from Python: round to two decimal places. -/
def round2 (q : ℚ) : ℚ := (roundHalfEven (q * 100) : ℚ) / 100

/-- Embedding of `compute_winner(v, s)` from `prompt-comparisons.py`
(lines 33–46).  `v` is the mean of the metric for framework `vllm`, `s`
for framework `sgl`; `none` plays the role of NaN (`pd.isna`). -/
def compute_winner (v s : Option ℚ) : String × ℚ :=
  match v, s with
  | none, _ => ("N/A", 0)
  | some _, none => ("N/A", 0)
  | some v, some s =>
    if v < s then ("vllm", round2 (100 * (s - v) / s))
    else if s < v then ("sgl", round2 (100 * (v - s) / v))
    else ("Tie", 0)

/-- A division-guarded variant of `compute_winner`: identical control flow,
but each division is performed through `safeDiv`, which reports `none`
whenever the denominator is zero.  Used to state that the original code
never divides by zero. -/
def safeDiv (x y : ℚ) : Option ℚ :=
  if y = 0 then none else some (x / y)

def compute_winner_checked (v s : Option ℚ) : Option (String × ℚ) :=
  match v, s with
  | none, _ => some ("N/A", 0)
  | some _, none => some ("N/A", 0)
  | some v, some s =>
    if v < s then (safeDiv (100 * (s - v)) s).map (fun q => ("vllm", round2 q))
    else if s < v then (safeDiv (100 * (v - s)) v).map (fun q => ("sgl", round2 q))
    else some ("Tie", 0)

/-- The label swap of claim C9: exchanges the two framework labels and
fixes every other label. -/
def swapLabel (w : String) : String :=
  if w = "vllm" then "sgl" else if w = "sgl" then "vllm" else w

/-- One benchmark record, restricted to the fields the aggregation uses:
`framework`, the grouping keys `num_prompts` and `request_rate` (the latter
already numeric, after `main`'s `pd.to_numeric` / infinity substitution),
and the value of the one metric currently being summarised. -/
structure Rec where
  framework : String
  num_prompts : ℤ
  request_rate : ℚ
  value : ℚ
deriving DecidableEq, Repr

/-- The composite condition key the script groups and pivots on
(the pivot index: num_prompts, then request_rate). -/
def recKey (r : Rec) : ℤ × ℚ := (r.num_prompts, r.request_rate)

/-- The pandas groupby-mean of line 58 (keys: the condition fields plus
framework, values: the metric column), for one partition: the arithmetic mean of the metric over the
records of framework `fw` whose condition key is `k`; `none` when the
partition is empty (the pivot then holds NaN for that cell). -/
def groupMeanBy {K : Type} [DecidableEq K] (key : Rec → K)
    (records : List Rec) (fw : String) (k : K) : Option ℚ :=
  let vs := (records.filter
    (fun r => decide (r.framework = fw) && decide (key r = k))).map Rec.value
  if vs.isEmpty then none else some (vs.sum / vs.length)

/-- `groupMeanBy` at the composite key the script actually uses. -/
def groupMean (records : List Rec) (fw : String) (k : ℤ × ℚ) : Option ℚ :=
  groupMeanBy recKey records fw k

/-- The row order produced by line 61, which calls sort_index on the
pivot with level request_rate, ascending: primary sort on `request_rate`,
and — by the pandas default of also sorting the remaining index levels —
`num_prompts` sorted within ties. -/
def rowKeyLE (a b : ℤ × ℚ) : Prop :=
  a.2 < b.2 ∨ (a.2 = b.2 ∧ a.1 ≤ b.1)

instance : DecidableRel rowKeyLE := fun a b =>
  inferInstanceAs (Decidable (a.2 < b.2 ∨ (a.2 = b.2 ∧ a.1 ≤ b.1)))

instance : IsTotal (ℤ × ℚ) rowKeyLE :=
  ⟨fun a b => by
    unfold rowKeyLE
    rcases lt_trichotomy a.2 b.2 with h | h | h
    · exact Or.inl (Or.inl h)
    · rcases le_total a.1 b.1 with h1 | h1
      · exact Or.inl (Or.inr ⟨h, h1⟩)
      · exact Or.inr (Or.inr ⟨h.symm, h1⟩)
    · exact Or.inr (Or.inl h)⟩

instance : IsTrans (ℤ × ℚ) rowKeyLE :=
  ⟨fun a b c hab hbc => by
    unfold rowKeyLE at *
    rcases hab with h | ⟨he, h1⟩
    · rcases hbc with h' | ⟨he', _⟩
      · exact Or.inl (h.trans h')
      · exact Or.inl (lt_of_lt_of_eq h he')
    · rcases hbc with h' | ⟨he', h1'⟩
      · exact Or.inl (lt_of_eq_of_lt he h')
      · exact Or.inr ⟨he.trans he', h1.trans h1'⟩⟩

/-- The (deduplicated) row index of the pivot table after line 61: the
distinct condition keys of the records, sorted by `rowKeyLE`. -/
def pivotRowKeys (records : List Rec) : List (ℤ × ℚ) :=
  List.insertionSort rowKeyLE ((records.map recKey).dedup)

/-- One summary row per condition key: the key together with the
`(Fastest, Faster by %)` pair of lines 64–66. -/
def summaryRows (records : List Rec) : List ((ℤ × ℚ) × String × ℚ) :=
  (pivotRowKeys records).map
    (fun k => (k, compute_winner (groupMean records "vllm" k)
                    (groupMean records "sgl" k)))

/-- The ordering the Ordering sentence of section 4.1 of the spec describes, read with
the composite key written as `(num_prompts, request_rate)`: primary sort on
`num_prompts`, ties broken by `request_rate`.  Stated from the spec's
words, for comparison with `rowKeyLE` from the code. -/
def specRowOrderLE (a b : ℤ × ℚ) : Prop :=
  a.1 < b.1 ∨ (a.1 = b.1 ∧ a.2 ≤ b.2)

instance : DecidableRel specRowOrderLE := fun a b =>
  inferInstanceAs (Decidable (a.1 < b.1 ∨ (a.1 = b.1 ∧ a.2 ≤ b.2)))

/-- The records of the spec's grouping example (framework-A is `vllm`,
framework-B is `sgl`; the example fixes one condition, so all records share
`request_rate = 1`). -/
def c4recs : List Rec :=
  [⟨"vllm", 1, 1, 10⟩, ⟨"sgl", 1, 1, 20⟩, ⟨"vllm", 1, 1, 30⟩]

/-- Two records whose condition keys order differently under the code's
row order and the spec's: keys `(1, 2)` and `(2, 1)`. -/
def c5recs : List Rec :=
  [⟨"vllm", 1, 2, 10⟩, ⟨"vllm", 2, 1, 10⟩]

/-- Embedding of `load_data` (lines 19–31): strip each line, skip blank
lines, parse the rest, and silently skip lines the parser rejects.
`parse` stands for `json.loads`-plus-record-construction; `none` is a
parse failure (the `except` branch). -/
def load_data (parse : String → Option Rec) : List String → List Rec
  | [] => []
  | l :: ls =>
    if l.trim.isEmpty then load_data parse ls
    else
      match parse l.trim with
      | some r => r :: load_data parse ls
      | none => load_data parse ls

/-- The everywhere-failing parser, used by the witness of C7: a file all
of whose lines are malformed. -/
def parseNone : String → Option Rec := fun _ => none

/-- A raw `request_rate` as it sits in the input file: a finite number or
the float infinity. -/
inductive RawRate where
  | finite (q : ℚ)
  | infinite
deriving DecidableEq

/-- Line 196: a record whose request_rate equals infinity is assigned the
numeric rate 40 before grouping and plotting; finite rates are kept. -/
def substRate : RawRate → ℚ
  | .finite q => q
  | .infinite => 40

/-- Line 112: the display form of a (substituted) rate in the table; a
rate equal to 40 is shown as the string "infinite", any other as itself. -/
def displayRate (q : ℚ) : String ⊕ ℚ :=
  if q = 40 then Sum.inl "infinite" else Sum.inr q

end VBG

namespace VBG

/-- Claim C1. For finite non-missing values `a ≠ b`, `compute_winner` names the
framework holding the smaller value as winner, and the margin is
`100 * |a - b| / max a b` rounded to two decimals (the denominator is the
larger/slower value).  Framework-A is `vllm` (first argument), framework-B
is `sgl` (second argument). -/
theorem c1_compare_winner_margin (a b : ℚ) (h : a ≠ b) :
    compute_winner (some a) (some b) =
      ((if a < b then "vllm" else "sgl"), round2 (100 * |a - b| / max a b)) := by
  rcases lt_or_gt_of_ne h with hab | hba
  · have hmax : max a b = b := max_eq_right hab.le
    have habs : |a - b| = b - a := by
      rw [abs_sub_comm]; exact abs_of_pos (sub_pos.mpr hab)
    simp [compute_winner, hab, hmax, habs]
  · have hmax : max a b = a := max_eq_left hba.le
    have habs : |a - b| = a - b := abs_of_pos (sub_pos.mpr hba)
    simp [compute_winner, hba, not_lt_of_gt hba, hmax, habs]

/-- Witness for C1 at the spec's example `a = 10`, `b = 15`:
winner is `vllm` and the margin is `100 * 5 / 15` rounded to `33.33`. -/
theorem c1_compare_winner_margin_witness :
    compute_winner (some (10 : ℚ)) (some 15) = ("vllm", 3333/100) := by
  have h := c1_compare_winner_margin 10 15 (by norm_num)
  rw [h]
  norm_num [round2, roundHalfEven]

/-- Claim C2. `compute_winner` on equal finite values returns the tie label
with margin 0 (the code spells the label `"Tie"`). -/
theorem c2_tie (x : ℚ) : compute_winner (some x) (some x) = ("Tie", 0) := by
  simp [compute_winner]

/-- Claim C3. If either argument is missing (NaN, modelled by `none`),
`compute_winner` returns `("N/A", 0)`; being a total Lean function, the
embedding also shows the code path raises no exception there. -/
theorem c3_missing :
    (∀ s : Option ℚ, compute_winner none s = ("N/A", 0)) ∧
    (∀ v : Option ℚ, compute_winner v none = ("N/A", 0)) := by
  constructor
  · intro s; rfl
  · intro v; cases v <;> rfl

/-- Claim C9. Swapping the two arguments of `compute_winner` keeps the margin
and swaps the winner label between `"vllm"` and `"sgl"`, fixing `"Tie"`
and `"N/A"`. -/
theorem c9_swap (v s : Option ℚ) :
    compute_winner s v =
      (swapLabel (compute_winner v s).1, (compute_winner v s).2) := by
  cases v with
  | none => cases s <;> rfl
  | some a =>
    cases s with
    | none => rfl
    | some b =>
      rcases lt_trichotomy a b with h | h | h
      · simp [compute_winner, h, not_lt_of_gt h, swapLabel]
      · simp [compute_winner, h, swapLabel]
      · simp [compute_winner, h, not_lt_of_gt h, swapLabel]

/-- Claim C8. On non-negative inputs the control flow of `compute_winner`
never divides by zero: the guarded variant `compute_winner_checked`, which
flags any zero denominator, agrees with `some (compute_winner v s)`. -/
theorem c8_no_div_by_zero (v s : Option ℚ)
    (hv : ∀ a ∈ v, 0 ≤ a) (hs : ∀ b ∈ s, 0 ≤ b) :
    compute_winner_checked v s = some (compute_winner v s) := by
  cases v with
  | none => cases s <;> rfl
  | some a =>
    cases s with
    | none => rfl
    | some b =>
      have ha : 0 ≤ a := hv a rfl
      have hb : 0 ≤ b := hs b rfl
      rcases lt_trichotomy a b with h | h | h
      · have hbpos : b ≠ 0 := (lt_of_le_of_lt ha h).ne'
        simp [compute_winner_checked, compute_winner, h, safeDiv, hbpos]
      · simp [compute_winner_checked, compute_winner, h]
      · have hapos : a ≠ 0 := (lt_of_le_of_lt hb h).ne'
        simp [compute_winner_checked, compute_winner, h, not_lt_of_gt h,
          safeDiv, hapos]

/-- Witness for C8 at `v = 0`, `s = 5`: the division branch runs with a
strictly positive denominator. -/
theorem c8_no_div_by_zero_witness :
    compute_winner_checked (some (0 : ℚ)) (some 5) =
      some (compute_winner (some 0) (some 5)) :=
  c8_no_div_by_zero (some 0) (some 5)
    (by intro a ha; rw [Option.mem_some_iff] at ha; rw [ha])
    (by intro b hb; rw [Option.mem_some_iff] at hb; subst hb; norm_num)

/-- Claim C4. Grouping computes per-(key, framework) means and never mixes
frameworks: restricting the records to one framework first does not change
that framework's mean; and on the spec's example records, grouping by
`num_prompts` gives mean 20 for both frameworks at `n = 1`, hence a tie. -/
theorem c4_grouping_means {K : Type} [DecidableEq K] (key : Rec → K)
    (records : List Rec) (fw : String) (k : K) :
    groupMeanBy key records fw k =
      groupMeanBy key (records.filter (fun r => decide (r.framework = fw))) fw k ∧
    groupMeanBy Rec.num_prompts c4recs "vllm" 1 = some 20 ∧
    groupMeanBy Rec.num_prompts c4recs "sgl" 1 = some 20 ∧
    compute_winner (groupMeanBy Rec.num_prompts c4recs "vllm" 1)
      (groupMeanBy Rec.num_prompts c4recs "sgl" 1) = ("Tie", 0) := by
  have h1 : groupMeanBy Rec.num_prompts c4recs "vllm" 1 = some 20 := by
    simp [groupMeanBy, c4recs]
    norm_num
  have h2 : groupMeanBy Rec.num_prompts c4recs "sgl" 1 = some 20 := by
    simp [groupMeanBy, c4recs]
  refine ⟨?_, h1, h2, by rw [h1, h2]; simp [compute_winner]⟩
  unfold groupMeanBy
  rw [List.filter_filter]
  have hpred :
      (fun r => (decide (r.framework = fw) && decide (key r = k)) &&
        decide (r.framework = fw)) =
      (fun r => decide (r.framework = fw) && decide (key r = k)) := by
    funext r
    by_cases h : r.framework = fw <;> simp [h]
  rw [hpred]

/-- Claim C5, counterexample. The pivot rows are NOT ordered primarily by
`num_prompts`: on records with keys `(1, 2)` and `(2, 1)` the code (which
sorts on the `request_rate` level) puts `(2, 1)` first, so the row list is
not sorted by the spec's `(num_prompts, request_rate)` order. -/
theorem c5_counterexample :
    pivotRowKeys c5recs = [(2, 1), (1, 2)] ∧
    ¬ List.Sorted specRowOrderLE (pivotRowKeys c5recs) := by
  constructor
  · decide
  · decide

/-- Claim C5, amended. The result rows are ordered by `request_rate`
ascending, ties broken by `num_prompts` ascending (sort_index on the
request_rate level, with the pandas default of sorting the remaining
levels), and each condition key appears exactly once. -/
theorem c5_rows_sorted (records : List Rec) :
    List.Sorted rowKeyLE (pivotRowKeys records) ∧
    (pivotRowKeys records).Nodup := by
  constructor
  · exact List.sorted_insertionSort rowKeyLE _
  · exact ((List.perm_insertionSort rowKeyLE _).nodup_iff).mpr
      (List.nodup_dedup _)

/-- The mean of a framework with no record at the given condition key is
missing (`none`, the NaN cell of the pivot). -/
theorem groupMean_eq_none (records : List Rec) (fw : String) (k : ℤ × ℚ)
    (h : ∀ r ∈ records, r.framework = fw → recKey r ≠ k) :
    groupMean records fw k = none := by
  unfold groupMean groupMeanBy
  have hfil : records.filter
      (fun r => decide (r.framework = fw) && decide (recKey r = k)) = [] := by
    apply List.filter_eq_nil_iff.mpr
    intro a ha
    by_cases hfw : a.framework = fw
    · simp [hfw, h a ha hfw]
    · simp [hfw]
  rw [hfil]
  rfl

/-- Claim C6. A condition key present in the records of only one of the
two frameworks — no `sgl` record has that key, or no `vllm` record has it —
still yields a summary row, with winner `"N/A"` and margin 0, rather than
being dropped. -/
theorem c6_lone_framework_row (records : List Rec) (k : ℤ × ℚ)
    (hmem : ∃ r ∈ records, recKey r = k)
    (hlone : (∀ r ∈ records, r.framework = "sgl" → recKey r ≠ k) ∨
             (∀ r ∈ records, r.framework = "vllm" → recKey r ≠ k)) :
    (k, ("N/A", (0 : ℚ))) ∈ summaryRows records := by
  obtain ⟨r, hr, hkey⟩ := hmem
  have hk : k ∈ pivotRowKeys records := by
    have h1 : k ∈ records.map recKey := List.mem_map.mpr ⟨r, hr, hkey⟩
    have h2 : k ∈ (records.map recKey).dedup := List.mem_dedup.mpr h1
    exact ((List.perm_insertionSort rowKeyLE _).mem_iff).mpr h2
  apply List.mem_map.mpr
  refine ⟨k, hk, ?_⟩
  rcases hlone with hsgl | hvllm
  · rw [groupMean_eq_none records "sgl" k hsgl]
    cases groupMean records "vllm" k <;> rfl
  · rw [groupMean_eq_none records "vllm" k hvllm]
    rfl

/-- Witness for C6, both directions: one `vllm`-only record at key
`(1, 1)`, and one `sgl`-only record at key `(2, 3)`. -/
theorem c6_lone_framework_row_witness :
    (((1 : ℤ), (1 : ℚ)), ("N/A", (0 : ℚ))) ∈
      summaryRows [⟨"vllm", 1, 1, 10⟩] ∧
    (((2 : ℤ), (3 : ℚ)), ("N/A", (0 : ℚ))) ∈
      summaryRows [⟨"sgl", 2, 3, 7⟩] :=
  ⟨c6_lone_framework_row [⟨"vllm", 1, 1, 10⟩] (1, 1)
      ⟨⟨"vllm", 1, 1, 10⟩, by decide⟩ (Or.inl (by decide)),
   c6_lone_framework_row [⟨"sgl", 2, 3, 7⟩] (2, 3)
      ⟨⟨"sgl", 2, 3, 7⟩, by decide⟩ (Or.inr (by decide))⟩

/-- Unfolding lemma for `load_data` at a cons cell. -/
theorem load_data_cons (parse : String → Option Rec) (l : String)
    (ls : List String) :
    load_data parse (l :: ls) =
      if l.trim.isEmpty then load_data parse ls
      else
        match parse l.trim with
        | some r => r :: load_data parse ls
        | none => load_data parse ls := rfl

/-- Claim C7. A line the parser rejects is skipped without affecting the
rest of the load: removing it from the input leaves `load_data`'s result
(and hence every aggregate computed from it) unchanged; and an input all
of whose lines fail to parse loads to the empty list.  Totality of
`load_data` is the embedded form of "no hard failure". -/
theorem c7_malformed_line_skipped (parse : String → Option Rec)
    (ls1 ls2 : List String) (bad : String)
    (hbad : parse bad.trim = none) :
    load_data parse (ls1 ++ bad :: ls2) = load_data parse (ls1 ++ ls2) ∧
    (∀ ls : List String, (∀ l ∈ ls, parse l.trim = none) →
      load_data parse ls = []) := by
  constructor
  · induction ls1 with
    | nil =>
      rw [List.nil_append, List.nil_append, load_data_cons]
      by_cases hb : bad.trim.isEmpty
      · simp [hb]
      · simp [hb, hbad]
    | cons l ls1 ih =>
      rw [List.cons_append, List.cons_append, load_data_cons, load_data_cons]
      by_cases hl : l.trim.isEmpty
      · simp [hl, ih]
      · cases hp : parse l.trim with
        | none => simp [hl, hp, ih]
        | some r => simp [hl, hp, ih]
  · intro ls
    induction ls with
    | nil => intro _; rfl
    | cons l ls ih =>
      intro hall
      have hl : parse l.trim = none := hall l (List.mem_cons_self l ls)
      have hrest : ∀ x ∈ ls, parse x.trim = none :=
        fun x hx => hall x (List.mem_cons_of_mem l hx)
      rw [load_data_cons]
      by_cases he : l.trim.isEmpty
      · simp [he, ih hrest]
      · simp [he, hl, ih hrest]

/-- Witness for C7: the malformed line of the spec example among other
lines, all rejected by the concrete parser `parseNone`. -/
theorem c7_malformed_line_skipped_witness :
    load_data parseNone ["ok", "\x7bnot json", " ok "] =
      load_data parseNone ["ok", " ok "] ∧
    load_data parseNone ["\x7bnot json"] = [] := by
  have h := c7_malformed_line_skipped parseNone ["ok"] [" ok "] "\x7bnot json" rfl
  exact ⟨h.1, h.2 ["\x7bnot json"] (fun l _ => rfl)⟩

/-- Claim C10. The infinity sentinel is not injective and has no round-trip:
an unbounded rate and a genuine rate of 40 are both mapped to the numeric
rate 40, fall into the same group, and are both displayed as
`"infinite"`. -/
theorem c10_sentinel_collision :
    substRate RawRate.infinite = 40 ∧
    substRate (RawRate.finite 40) = substRate RawRate.infinite ∧
    RawRate.finite 40 ≠ RawRate.infinite ∧
    ¬ Function.Injective substRate ∧
    displayRate (substRate (RawRate.finite 40)) = Sum.inl "infinite" ∧
    displayRate (substRate RawRate.infinite) = Sum.inl "infinite" ∧
    groupMean [⟨"vllm", 1, substRate (RawRate.finite 40), 10⟩,
               ⟨"vllm", 1, substRate RawRate.infinite, 30⟩]
      "vllm" (1, 40) = some 20 := by
  refine ⟨rfl, rfl, by decide, ?_, by decide, by decide, ?_⟩
  · intro hinj
    have h40 : RawRate.finite 40 = RawRate.infinite :=
      hinj (show substRate (RawRate.finite 40) = substRate RawRate.infinite
        from rfl)
    exact absurd h40 (by decide)
  · simp [groupMean, groupMeanBy, recKey, substRate]
    norm_num

end VBG
